import Mathlib

/-!
Shallow embedding of the o3storage storage/replication engine, translated
from the Rust sources:

  * `src/storage/src/object.rs`     — `Object`, checksums, ETag, ids
  * `src/storage/src/metadata.rs`   — `MetadataStore` over the parquet
    tables `objects` and `buckets` (modelled as row lists; the SQL queries
    are translated to list operations with the same semantics)
  * `src/storage/src/versioning.rs` — `VersionedObject` (a `BTreeMap`
    keyed by creation timestamp, modelled as a sorted association list)
  * `src/storage/src/engine.rs`     — `StorageEngine`
  * `src/api/src/handlers.rs`       — the S3 handlers and the write gate
  * `src/src/node.rs`               — `ClusterState` and the cluster
    health monitor that computes `is_write_enabled`
  * `src/consensus/src/raft.rs`     — `RaftNode::handle_vote_request`

Effects are made explicit: `Uuid::new_v4()` and `Utc::now()` become
explicit `version_id : String` and `now : Int` (milliseconds) arguments,
filesystem blob storage becomes an association list keyed by object id,
and fallible operations return `Except StorageError`.

The BLAKE3 and SHA-256 digests come from external crates, so they are
abstracted as a pair of functions `HashFns`; every theorem that needs a
digest property states it as an explicit hypothesis (the real digests are
64-character hex strings, in particular non-empty), and witnesses
instantiate `HashFns` with a concrete executable stand-in.
-/

set_option maxRecDepth 100000

namespace O3

/-- The two content digests used by the engine (`object.rs`): hex-encoded
SHA-256 and BLAKE3. Both crates produce 64-character hex strings. -/
structure HashFns where
  sha256Hex : List Nat → String
  blake3Hex : List Nat → String

/-- Concrete executable stand-in used by witnesses and counterexamples:
deterministic 64-character hex strings, like the real digests. -/
def hashFnsModel : HashFns :=
  { sha256Hex := fun _ => String.mk (List.replicate 64 'a')
    blake3Hex := fun _ => String.mk (List.replicate 64 'b') }

/-- `Checksum` from `object.rs`. -/
structure Checksum where
  sha256 : String
  blake3 : String
deriving DecidableEq, Repr

/-- `Object::calculate_checksum` (`object.rs` lines 76-85). -/
def calculate_checksum (h : HashFns) (data : List Nat) : Checksum :=
  { sha256 := h.sha256Hex data, blake3 := h.blake3Hex data }

/-- `ObjectMetadata` from `object.rs`. Timestamps are Unix milliseconds. -/
structure ObjectMetadata where
  key : String
  bucket : String
  size : Nat
  content_type : String
  created_at : Int
  etag : String
  custom_metadata : List (String × String)
  version_id : String
deriving DecidableEq, Repr

/-- `Object` from `object.rs`. -/
structure Object where
  id : String
  data : List Nat
  metadata : ObjectMetadata
  checksum : Checksum
deriving DecidableEq, Repr

/-- `Object::generate_id` (`object.rs` lines 87-89). -/
def generate_id (bucket key blake3_hash : String) : String :=
  bucket ++ ":" ++ key ++ ":" ++ blake3_hash.take 16

/-- `Object::new` (`object.rs` lines 37-69). `Uuid::new_v4()` and
`Utc::now()` are passed in explicitly. The ETag is the first 32 hex
characters of the BLAKE3 digest wrapped in double quotes
(`format!("\"{}\"", &checksum.blake3[..32])`). -/
def Object.new (h : HashFns) (bucket key : String) (data : List Nat)
    (content_type : Option String) (custom_metadata : List (String × String))
    (now : Int) (version_id : String) : Object :=
  let size := data.length
  let checksum := calculate_checksum h data
  let id := generate_id bucket key checksum.blake3
  let etag := "\"" ++ checksum.blake3.take 32 ++ "\""
  { id := id
    data := data
    metadata :=
      { key := key
        bucket := bucket
        size := size
        content_type := content_type.getD "application/octet-stream"
        created_at := now
        etag := etag
        custom_metadata := custom_metadata
        version_id := version_id }
    checksum := checksum }

/-- `Object::verify_integrity` (`object.rs` lines 71-74): recompute both
checksums of the object's bytes and compare with the stored ones. -/
def Object.verify_integrity (h : HashFns) (o : Object) : Bool :=
  let calculated := calculate_checksum h o.data
  calculated.sha256 == o.checksum.sha256 && calculated.blake3 == o.checksum.blake3

/-- `ObjectReference` from `object.rs` (the `storage_class` field is the
constant `Standard` everywhere in the engine and is omitted). -/
structure ObjectReference where
  id : String
  bucket : String
  key : String
  version_id : String
  size : Nat
  etag : String
  last_modified : Int
deriving DecidableEq, Repr

/-- `ObjectReference::from_object` (`object.rs` lines 124-136). -/
def ObjectReference.from_object (o : Object) : ObjectReference :=
  { id := o.id
    bucket := o.metadata.bucket
    key := o.metadata.key
    version_id := o.metadata.version_id
    size := o.metadata.size
    etag := o.metadata.etag
    last_modified := o.metadata.created_at }

/-- One row of the `objects` parquet table (`metadata.rs` lines 37-50).
The `custom_metadata` JSON column is kept as the underlying pairs. -/
structure ObjectRow where
  id : String
  bucket : String
  key : String
  version_id : String
  size : Nat
  etag : String
  content_type : String
  created_at : Int
  custom_metadata : List (String × String)
  checksum_sha256 : String
  checksum_blake3 : String
  is_delete_marker : Bool
deriving DecidableEq, Repr

/-- One row of the `buckets` parquet table (`metadata.rs` lines 52-56). -/
structure BucketRow where
  name : String
  created_at : Int
  region : String
deriving DecidableEq, Repr

/-- The `MetadataStore` state: the contents of the `objects` and
`buckets` parquet tables, in append order. -/
structure MetadataStore where
  objects : List ObjectRow
  buckets : List BucketRow
deriving DecidableEq, Repr

/-- The empty store created by `MetadataStore::new`. -/
def MetadataStore.empty : MetadataStore := { objects := [], buckets := [] }

/-- Row written by `MetadataStore::store_object` (`metadata.rs` lines
129-167): always `is_delete_marker = false`. -/
def rowOfObject (o : Object) : ObjectRow :=
  { id := o.id
    bucket := o.metadata.bucket
    key := o.metadata.key
    version_id := o.metadata.version_id
    size := o.metadata.size
    etag := o.metadata.etag
    content_type := o.metadata.content_type
    created_at := o.metadata.created_at
    custom_metadata := o.metadata.custom_metadata
    checksum_sha256 := o.checksum.sha256
    checksum_blake3 := o.checksum.blake3
    is_delete_marker := false }

/-- `MetadataStore::store_object`: append one row to `objects`. -/
def MetadataStore.store_object (s : MetadataStore) (o : Object) : MetadataStore :=
  { s with objects := s.objects ++ [rowOfObject o] }

/-- `ObjectReference` assembled from a row, as in
`MetadataStore::get_object_metadata` (`metadata.rs` lines 254-266). -/
def refOfRow (r : ObjectRow) : ObjectReference :=
  { id := r.id
    bucket := r.bucket
    key := r.key
    version_id := r.version_id
    size := r.size
    etag := r.etag
    last_modified := r.created_at }

/-- `ORDER BY created_at DESC LIMIT 1` over a row list: the row with the
maximal `created_at` (the first such row in scan order on ties). -/
def latestRow (rows : List ObjectRow) : Option ObjectRow :=
  rows.foldl
    (fun acc r =>
      match acc with
      | none => some r
      | some m => if r.created_at > m.created_at then some r else some m)
    none

/-- `MetadataStore::get_object_metadata` (`metadata.rs` lines 209-269).
Both SQL branches filter `is_delete_marker = false`; the versionless
branch takes the latest (by `created_at`) non-delete-marker row. -/
def MetadataStore.get_object_metadata (s : MetadataStore) (bucket key : String)
    (version_id : Option String) : Option ObjectReference :=
  match version_id with
  | some vid =>
      (s.objects.find? (fun r =>
        r.bucket == bucket && r.key == key && r.version_id == vid &&
        r.is_delete_marker == false)).map refOfRow
  | none =>
      (latestRow (s.objects.filter (fun r =>
        r.bucket == bucket && r.key == key && r.is_delete_marker == false))).map refOfRow

/-- `VersionInfo` from `versioning.rs` (lines 18-26). -/
structure VersionInfo where
  version_id : String
  object_id : String
  size : Nat
  etag : String
  created_at : Int
  is_delete_marker : Bool
deriving DecidableEq, Repr

/-- `VersionedObject` from `versioning.rs` (lines 9-16). The
`versions : BTreeMap<DateTime<Utc>, VersionInfo>` field is modelled as an
association list strictly sorted by its key, the creation timestamp. -/
structure VersionedObject where
  bucket : String
  key : String
  versions : List (Int × VersionInfo)
  latest_version : Option String
  is_deleted : Bool
deriving DecidableEq, Repr

/-- `VersionedObject::new` (`versioning.rs` lines 29-37). -/
def VersionedObject.new (bucket key : String) : VersionedObject :=
  { bucket := bucket
    key := key
    versions := []
    latest_version := none
    is_deleted := false }

/-- `BTreeMap::insert`: insert keeping keys strictly sorted, replacing the
stored value when the key is already present. -/
def btInsert (k : Int) (v : VersionInfo) :
    List (Int × VersionInfo) → List (Int × VersionInfo)
  | [] => [(k, v)]
  | (k', v') :: rest =>
      if k < k' then (k, v) :: (k', v') :: rest
      else if k = k' then (k, v) :: rest
      else (k', v') :: btInsert k v rest

/-- Stable insertion (after all rows with `created_at ≤ r.created_at`)
used to model `ORDER BY created_at ASC` over the scanned rows. -/
def insertByTs (r : ObjectRow) : List ObjectRow → List ObjectRow
  | [] => [r]
  | x :: xs =>
      if r.created_at < x.created_at then r :: x :: xs else x :: insertByTs r xs

/-- Stable sort by `created_at` ascending. -/
def sortByTsAsc (rows : List ObjectRow) : List ObjectRow :=
  rows.foldl (fun acc r => insertByTs r acc) []

/-- `VersionInfo` assembled from a row, as in
`MetadataStore::get_versioned_object` (`metadata.rs` lines 317-324). -/
def versionInfoOfRow (r : ObjectRow) : VersionInfo :=
  { version_id := r.version_id
    object_id := r.id
    size := r.size
    etag := r.etag
    created_at := r.created_at
    is_delete_marker := r.is_delete_marker }

/-- The loop body of `MetadataStore::get_versioned_object` (`metadata.rs`
lines 292-335): insert the row into the timestamp-keyed `versions` map
and update `latest_version` and `is_deleted` from the scanned row. -/
def applyVersionRow (vo : VersionedObject) (r : ObjectRow) : VersionedObject :=
  { vo with
      versions := btInsert r.created_at (versionInfoOfRow r) vo.versions
      latest_version := some r.version_id
      is_deleted := r.is_delete_marker }

/-- `MetadataStore::get_versioned_object` (`metadata.rs` lines 271-339):
scan all rows of the key ordered by `created_at` ascending, applying
`applyVersionRow` to each. -/
def MetadataStore.get_versioned_object (s : MetadataStore) (bucket key : String) :
    Option VersionedObject :=
  let rows := sortByTsAsc (s.objects.filter (fun r => r.bucket == bucket && r.key == key))
  if rows.isEmpty then none
  else some (rows.foldl applyVersionRow (VersionedObject.new bucket key))

/-- Insertion into a strictly-sorted duplicate-free key list, modelling
`SELECT DISTINCT ... ORDER BY key`. -/
def insertKeySorted (k : String) : List String → List String
  | [] => [k]
  | x :: xs =>
      if k < x then k :: x :: xs
      else if k = x then x :: xs
      else x :: insertKeySorted k xs

/-- The distinct keys of a row list, lexicographically sorted. -/
def sortedDistinctKeys (rows : List ObjectRow) : List String :=
  rows.foldl (fun acc r => insertKeySorted r.key acc) []

/-- `FIRST_VALUE(...) OVER (PARTITION BY bucket, key ORDER BY created_at
DESC)`: the latest row of the partition for key `k`. -/
def latestRowForKey (rows : List ObjectRow) (k : String) : Option ObjectRow :=
  latestRow (rows.filter (fun r => r.key == k))

/-- The optional `key LIKE '<pfx>%'` condition of the listing SQL. -/
def matchesPfx (pfx : Option String) (key : String) : Bool :=
  match pfx with
  | some p => p.isPrefixOf key
  | none => true

/-- The row set the listing SQL ranges over: its WHERE clause filters
`bucket`, the optional prefix, and `is_delete_marker = false` BEFORE the
per-key window computes anything (`metadata.rs` lines 350-351, 364-365). -/
def liveRows (s : MetadataStore) (bucket : String) (pfx : Option String) :
    List ObjectRow :=
  s.objects.filter (fun r =>
    r.bucket == bucket && r.is_delete_marker == false && matchesPfx pfx r.key)

/-- `MetadataStore::list_objects` (`metadata.rs` lines 341-415): over
`liveRows`, one row per distinct key (that key's latest remaining row,
via the `FIRST_VALUE ... ORDER BY created_at DESC` window),
`ORDER BY key LIMIT max_keys`. -/
def MetadataStore.list_objects (s : MetadataStore) (bucket : String)
    (pfx : Option String) (max_keys : Nat) : List ObjectReference :=
  let rows := liveRows s bucket pfx
  ((sortedDistinctKeys rows).take max_keys).filterMap
    (fun k => (latestRowForKey rows k).map refOfRow)

/-- The delete-marker row appended by `MetadataStore::delete_object`
(`metadata.rs` lines 456-492): id `"<bucket>:<key>:delete-marker"`, a
fresh version id, size 0, empty etag/checksums, `is_delete_marker = true`. -/
def deleteMarkerRow (bucket key fresh_vid : String) (now : Int) : ObjectRow :=
  { id := bucket ++ ":" ++ key ++ ":delete-marker"
    bucket := bucket
    key := key
    version_id := fresh_vid
    size := 0
    etag := ""
    content_type := ""
    created_at := now
    custom_metadata := []
    checksum_sha256 := ""
    checksum_blake3 := ""
    is_delete_marker := true }

/-- `MetadataStore::delete_object` (`metadata.rs` lines 417-494). With a
version id the matching rows are removed (the table is rewritten without
them); without one a delete-marker row is appended. Both branches return
`true` unconditionally. -/
def MetadataStore.delete_object (s : MetadataStore) (bucket key : String)
    (version_id : Option String) (now : Int) (fresh_vid : String) :
    Bool × MetadataStore :=
  match version_id with
  | some vid =>
      (true,
        { s with objects := s.objects.filter (fun r =>
            !(r.bucket == bucket && r.key == key && r.version_id == vid)) })
  | none =>
      (true, { s with objects := s.objects ++ [deleteMarkerRow bucket key fresh_vid now] })

/-- `MetadataStore::create_bucket` (`metadata.rs` lines 496-512): append a
row to `buckets` unconditionally (no duplicate check) and return `Ok(())`. -/
def MetadataStore.create_bucket (s : MetadataStore) (name : String)
    (region : Option String) (now : Int) : MetadataStore :=
  { s with buckets := s.buckets ++
      [{ name := name, created_at := now, region := region.getD "us-east-1" }] }

/-- `MetadataStore::bucket_exists` (`metadata.rs` lines 514-532):
`SELECT COUNT(*) FROM buckets WHERE name = ...` compared with 0. -/
def MetadataStore.bucket_exists (s : MetadataStore) (name : String) : Bool :=
  (s.buckets.filter (fun b => b.name == name)).length > 0

/-- `StorageError` from `storage/src/lib.rs` (lines 34-56). -/
inductive StorageError where
  | Io (msg : String)
  | ObjectNotFound (id : String)
  | InsufficientSpace (msg : String)
  | Corruption (msg : String)
  | Serialization (msg : String)
  | Database (msg : String)
  | InvalidObject (msg : String)
deriving DecidableEq, Repr

/-- The `StorageEngine` state (`engine.rs` lines 13-18): the metadata
store, the blob files under `objects/<id[..2]>/<id>` (an association list
keyed by object id), the capacity bound, and the running stats. -/
structure StorageEngine where
  max_storage_size : Nat
  metadata_store : MetadataStore
  blobs : List (String × List Nat)
  used_space_bytes : Nat
  total_objects : Nat
  total_size_bytes : Nat
deriving DecidableEq, Repr

/-- A fresh engine over an empty store (`StorageEngine::new`). -/
def StorageEngine.fresh (max_storage_size : Nat) : StorageEngine :=
  { max_storage_size := max_storage_size
    metadata_store := MetadataStore.empty
    blobs := []
    used_space_bytes := 0
    total_objects := 0
    total_size_bytes := 0 }

/-- `fs::write` in `store_object_data` (`engine.rs` lines 186-194):
overwrite the file at the object's path, or create it. -/
def storeBlob (blobs : List (String × List Nat)) (id : String) (data : List Nat) :
    List (String × List Nat) :=
  if blobs.any (fun p => p.1 == id) then
    blobs.map (fun p => if p.1 == id then (id, data) else p)
  else blobs ++ [(id, data)]

/-- `load_object_data` (`engine.rs` lines 196-207): read the blob file. -/
def loadBlob (blobs : List (String × List Nat)) (id : String) : Option (List Nat) :=
  (blobs.find? (fun p => p.1 == id)).map Prod.snd

/-- `StorageEngine::put_object` (`engine.rs` lines 63-113). Note the
first step (lines 71-73): when the bucket does not exist it is CREATED,
not refused. Then the object is built, integrity-checked, the space bound
checked, the blob and the metadata row written, and the stats bumped. -/
def StorageEngine.put_object (h : HashFns) (e : StorageEngine) (bucket key : String)
    (data : List Nat) (content_type : Option String)
    (custom_metadata : List (String × String)) (now : Int) (version_id : String) :
    Except StorageError (ObjectReference × StorageEngine) :=
  let e :=
    if e.metadata_store.bucket_exists bucket then e
    else { e with metadata_store := e.metadata_store.create_bucket bucket none now }
  let object := Object.new h bucket key data content_type custom_metadata now version_id
  if !object.verify_integrity h then
    .error (.Corruption "Object failed integrity check")
  else if e.used_space_bytes + object.metadata.size > e.max_storage_size then
    .error (.InsufficientSpace "Not enough space")
  else
    let e := { e with blobs := storeBlob e.blobs object.id object.data }
    let e := { e with metadata_store := e.metadata_store.store_object object }
    let object_ref := ObjectReference.from_object object
    let e :=
      { e with
          total_objects := e.total_objects + 1
          total_size_bytes := e.total_size_bytes + object.metadata.size
          used_space_bytes := e.used_space_bytes + object.metadata.size }
    .ok (object_ref, e)

/-- `StorageEngine::get_object` (`engine.rs` lines 115-150). The object
is reconstructed from the metadata row and the blob file with BOTH stored
checksum fields set to the EMPTY string (lines 134-137), and is then
integrity-verified against those empty strings (lines 140-144). -/
def StorageEngine.get_object (h : HashFns) (e : StorageEngine) (bucket key : String)
    (version_id : Option String) : Except StorageError (Option Object) :=
  match e.metadata_store.get_object_metadata bucket key version_id with
  | none => .ok none
  | some obj_ref =>
      match loadBlob e.blobs obj_ref.id with
      | none => .error (.ObjectNotFound obj_ref.id)
      | some data =>
          let object : Object :=
            { id := obj_ref.id
              data := data
              metadata :=
                { key := obj_ref.key
                  bucket := obj_ref.bucket
                  size := obj_ref.size
                  content_type := "application/octet-stream"
                  created_at := obj_ref.last_modified
                  etag := obj_ref.etag
                  custom_metadata := []
                  version_id := obj_ref.version_id }
              checksum := { sha256 := "", blake3 := "" } }
          if !object.verify_integrity h then
            .error (.Corruption (object.id ++ " failed integrity check"))
          else .ok (some object)

/-- `StorageEngine::delete_object` (`engine.rs` lines 152-160):
passthrough to the metadata store. -/
def StorageEngine.delete_object (e : StorageEngine) (bucket key : String)
    (version_id : Option String) (now : Int) (fresh_vid : String) :
    Bool × StorageEngine :=
  let (result, ms) := e.metadata_store.delete_object bucket key version_id now fresh_vid
  (result, { e with metadata_store := ms })

/-- `StorageEngine::list_objects` (`engine.rs` lines 162-164). -/
def StorageEngine.list_objects (e : StorageEngine) (bucket : String)
    (pfx : Option String) (max_keys : Nat) : List ObjectReference :=
  e.metadata_store.list_objects bucket pfx max_keys

/-- `StorageEngine::get_versioned_object` (`engine.rs` lines 166-168). -/
def StorageEngine.get_versioned_object (e : StorageEngine) (bucket key : String) :
    Option VersionedObject :=
  e.metadata_store.get_versioned_object bucket key

/-- `StorageEngine::create_bucket` (`engine.rs` lines 170-172). -/
def StorageEngine.create_bucket (e : StorageEngine) (name : String)
    (region : Option String) (now : Int) : StorageEngine :=
  { e with metadata_store := e.metadata_store.create_bucket name region now }

/-- `StorageEngine::bucket_exists` (`engine.rs` lines 174-176). -/
def StorageEngine.bucket_exists (e : StorageEngine) (name : String) : Bool :=
  e.metadata_store.bucket_exists name

/-- `StorageEngine::get_object_metadata` (`engine.rs` lines 182-184). -/
def StorageEngine.get_object_metadata (e : StorageEngine) (bucket key : String)
    (version_id : Option String) : Option ObjectReference :=
  e.metadata_store.get_object_metadata bucket key version_id

/-- `ApiError` from `api/src/error.rs` (the variants reachable from the
modelled handlers; `Storage` carries the underlying storage error that
the handler renders with `e.to_string()`). -/
inductive ApiError where
  | Storage (e : StorageError)
  | NoSuchBucket (b : String)
  | NoSuchKey (k : String)
  | InvalidRequest (msg : String)
  | InternalError (msg : String)
  | InsufficientReplicas
deriving DecidableEq, Repr

/-- `NodeStatus` from `src/src/node.rs` (lines 32-37). -/
inductive NodeStatus where
  | Active
  | Inactive
  | Failed
deriving DecidableEq, Repr

/-- `NodeInfo` from `src/src/node.rs` (lines 23-30); address/port are not
consulted by the modelled logic. -/
structure NodeInfo where
  id : String
  last_heartbeat : Int
  status : NodeStatus
deriving DecidableEq, Repr

/-- `ClusterState` from `src/src/node.rs` (lines 16-21). `active_nodes`
is populated by `update_cluster_state_from_heartbeat`
(`consensus/src/manager.rs` lines 211-232) from every heartbeat that
reaches the consensus manager's channel — which includes the node's OWN
periodic heartbeat (`ConsensusManager::heartbeat_loop`, `manager.rs`
lines 132-158, routed through `handle_message` lines 179-182), so SELF
is inserted as an Active entry; peer heartbeats would be inserted the
same way when the transport delivers them (`communication.rs` leaves
that forwarding as a TODO). The list therefore holds the known Active
nodes INCLUDING self. -/
structure ClusterState where
  active_nodes : List NodeInfo
  total_replicas : Nat
  is_write_enabled : Bool
deriving DecidableEq, Repr

/-- Count of `Active` entries, as in `node.rs` lines 156-159. -/
def countActive (nodes : List NodeInfo) : Nat :=
  (nodes.filter (fun n => n.status == NodeStatus.Active)).length

/-- One iteration of `Node::monitor_cluster_health` (`node.rs` lines
151-187): recompute `total_replicas` and
`is_write_enabled := active_count >= replication_factor`, then drop every
node whose heartbeat is older than `3 × heartbeat_interval_ms`. -/
def monitorTick (replication_factor heartbeat_interval_ms : Nat) (now : Int)
    (s : ClusterState) : ClusterState :=
  let active_count := countActive s.active_nodes
  { active_nodes := s.active_nodes.filter (fun n =>
      !(now - n.last_heartbeat > (3 * heartbeat_interval_ms : Nat)))
    total_replicas := active_count
    is_write_enabled := active_count ≥ replication_factor }

/-- The success payload of the put handler: the `etag` and
`x-amz-version-id` response headers (`handlers.rs` lines 207-213). -/
structure PutObjectOk where
  etag : String
  version_id : String
deriving DecidableEq, Repr

/-- `put_object` handler (`api/src/handlers.rs` lines 154-214): refuse
with `InsufficientReplicas` when `is_write_enabled` is false (lines
162-167, before any storage call), otherwise run the engine put. -/
def put_object_handler (h : HashFns) (cs : ClusterState) (e : StorageEngine)
    (bucket key : String) (body : List Nat) (content_type : Option String)
    (custom_metadata : List (String × String)) (now : Int) (version_id : String) :
    Except ApiError (PutObjectOk × StorageEngine) :=
  if !cs.is_write_enabled then .error .InsufficientReplicas
  else
    match StorageEngine.put_object h e bucket key body content_type custom_metadata
        now version_id with
    | .error se => .error (.Storage se)
    | .ok (r, e') => .ok ({ etag := r.etag, version_id := r.version_id }, e')

/-- `get_object` handler (`handlers.rs` lines 216-251): no write gate;
`Ok(None)` becomes `NoSuchKey`, storage errors become `ApiError::Storage`. -/
def get_object_handler (h : HashFns) (e : StorageEngine) (bucket key : String)
    (version_id : Option String) : Except ApiError Object :=
  match StorageEngine.get_object h e bucket key version_id with
  | .error se => .error (.Storage se)
  | .ok none => .error (.NoSuchKey (bucket ++ ":" ++ key))
  | .ok (some o) => .ok o

/-- `head_object` handler (`handlers.rs` lines 253-279): no write gate. -/
def head_object_handler (e : StorageEngine) (bucket key : String)
    (version_id : Option String) : Except ApiError ObjectReference :=
  match StorageEngine.get_object_metadata e bucket key version_id with
  | none => .error (.NoSuchKey (bucket ++ ":" ++ key))
  | some r => .ok r

/-- `delete_object` handler (`handlers.rs` lines 281-334): write gate
first (lines 289-294); the boolean in the result is the
`delete_marker` flag of the response (`version_id.is_none()`, line 326). -/
def delete_object_handler (cs : ClusterState) (e : StorageEngine)
    (bucket key : String) (version_id : Option String) (now : Int)
    (fresh_vid : String) : Except ApiError (Bool × StorageEngine) :=
  if !cs.is_write_enabled then .error .InsufficientReplicas
  else
    let (deleted, e') := StorageEngine.delete_object e bucket key version_id now fresh_vid
    if !deleted then .error (.NoSuchKey (bucket ++ ":" ++ key))
    else .ok (version_id.isNone, e')

/-- `create_bucket` handler (`handlers.rs` lines 71-95): write gate, then
the engine create (which never fails on a duplicate name). -/
def create_bucket_handler (cs : ClusterState) (e : StorageEngine)
    (bucket : String) (now : Int) : Except ApiError StorageEngine :=
  if !cs.is_write_enabled then .error .InsufficientReplicas
  else .ok (StorageEngine.create_bucket e bucket none now)

/-- `list_objects_v2` handler (`handlers.rs` lines 97-152): no write
gate; `NoSuchBucket` when the bucket is absent; `max_keys` is
`query.max_keys.unwrap_or(1000).min(1000)`. -/
def list_objects_v2_handler (e : StorageEngine) (bucket : String)
    (pfx : Option String) (max_keys_query : Option Nat) :
    Except ApiError (List ObjectReference) :=
  if !e.bucket_exists bucket then .error (.NoSuchBucket bucket)
  else .ok (e.list_objects bucket pfx (min (max_keys_query.getD 1000) 1000))

/-- A replication-log entry as far as `handle_vote_request` is concerned
(`consensus/src/messages.rs`): only its `term` and `index`. -/
structure LogEntry where
  term : Nat
  index : Nat
deriving DecidableEq, Repr

/-- `VoteRequest` from `consensus/src/messages.rs` (lines 29-34). -/
structure VoteRequest where
  candidate_id : String
  term : Nat
  last_log_index : Nat
  last_log_term : Nat
deriving DecidableEq, Repr

/-- The `RaftNode` state consulted by `handle_vote_request`
(`consensus/src/raft.rs` lines 17-38): `current_term`, `voted_for` and
the log (which the handler never reads). -/
structure RaftVoteState where
  current_term : Nat
  voted_for : Option String
  log : List LogEntry
deriving DecidableEq, Repr

/-- `RaftNode::handle_vote_request` (`raft.rs` lines 104-127), returning
the computed `grant_vote` and the updated state. A strictly higher term
resets `voted_for` and grants; an equal term grants iff not yet voted or
voted for the same candidate; a lower term denies. The request's
`last_log_index` / `last_log_term` fields are never consulted. -/
def handle_vote_request (s : RaftVoteState) (req : VoteRequest) :
    Bool × RaftVoteState :=
  if req.term > s.current_term then
    (true, { s with current_term := req.term, voted_for := some req.candidate_id })
  else if req.term = s.current_term then
    let grant := s.voted_for.isNone || s.voted_for == some req.candidate_id
    (grant, if grant then { s with voted_for := some req.candidate_id } else s)
  else (false, s)

/-- Modelled from the spec: the vote-granting condition of §4.4
("requester's term ≥ local term AND the node has not yet voted this term
(or voted for the same candidate) AND requester's log is at least as
up-to-date"), with the local last log term/index read from the last log
entry (0 for an empty log). This is the claim's reference predicate, to
be compared with `handle_vote_request`. -/
def specVoteGrant (s : RaftVoteState) (req : VoteRequest) : Bool :=
  let local_last_term := ((s.log.getLast?).map LogEntry.term).getD 0
  let local_last_index := ((s.log.getLast?).map LogEntry.index).getD 0
  let not_voted := s.voted_for.isNone || s.voted_for == some req.candidate_id
  let log_ok := req.last_log_term > local_last_term ||
    (req.last_log_term = local_last_term && req.last_log_index ≥ local_last_index)
  req.term ≥ s.current_term && not_voted && log_ok

/-! ### Concrete states used by counterexamples and witnesses -/

/-- A cluster state whose write gate is open. -/
def openCluster : ClusterState :=
  { active_nodes := [], total_replicas := 0, is_write_enabled := true }

/-- The cluster state after only the node's OWN heartbeat has been
observed (the situation the shipped transport produces): `active_nodes`
holds exactly self, Active — one Active node including self. -/
def selfOnlyCluster : ClusterState :=
  { active_nodes := [{ id := "self", last_heartbeat := 0, status := NodeStatus.Active }]
    total_replicas := 1
    is_write_enabled := true }

/-- The engine obtained from a fresh engine by `put("b","k",[104,105])`
at time 1 followed by a versionless `delete("b","k")` at time 2. -/
def enginePutDelete : StorageEngine :=
  match StorageEngine.put_object hashFnsModel (StorageEngine.fresh 1000)
      "b" "k" [104, 105] none [] 1 "v1" with
  | .ok (_, e) => (e.delete_object "b" "k" none 2 "v2").2
  | .error _ => StorageEngine.fresh 1000

/-- A store holding, for key `"h"` of bucket `"b"`, one object version
(timestamp 1) and one later delete marker (timestamp 2): the key's most
recent version is a delete marker. -/
def tombstoneLatestStore : MetadataStore :=
  { objects :=
      [{ id := "i1", bucket := "b", key := "h", version_id := "v1", size := 2,
         etag := "e1", content_type := "", created_at := 1, custom_metadata := [],
         checksum_sha256 := "", checksum_blake3 := "", is_delete_marker := false },
       { id := "b:h:delete-marker", bucket := "b", key := "h", version_id := "v2",
         size := 0, etag := "", content_type := "", created_at := 2,
         custom_metadata := [], checksum_sha256 := "", checksum_blake3 := "",
         is_delete_marker := true }]
    buckets := [{ name := "b", created_at := 0, region := "us-east-1" }] }

/-- A store holding two distinct object versions of `("b","h")` created
with the identical timestamp 5. -/
def equalTsStore : MetadataStore :=
  { objects :=
      [{ id := "i1", bucket := "b", key := "h", version_id := "v1", size := 2,
         etag := "e1", content_type := "", created_at := 5, custom_metadata := [],
         checksum_sha256 := "", checksum_blake3 := "", is_delete_marker := false },
       { id := "i2", bucket := "b", key := "h", version_id := "v2", size := 3,
         etag := "e2", content_type := "", created_at := 5, custom_metadata := [],
         checksum_sha256 := "", checksum_blake3 := "", is_delete_marker := false }]
    buckets := [{ name := "b", created_at := 0, region := "us-east-1" }] }

/-- The versioned object the store reports for `("b","h")` in
`equalTsStore`. -/
def equalTsVersioned : VersionedObject :=
  (equalTsStore.get_versioned_object "b" "h").getD (VersionedObject.new "b" "h")

/-- A raft node at term 5 with a non-empty log whose last entry has
term 5, having voted for nobody in this term. -/
def staleLogLocalState : RaftVoteState :=
  { current_term := 5, voted_for := none, log := [{ term := 5, index := 1 }] }

/-- A vote request of equal term whose log information is strictly
behind `staleLogLocalState` (empty log: last term 0, last index 0). -/
def staleLogRequest : VoteRequest :=
  { candidate_id := "c", term := 5, last_log_index := 0, last_log_term := 0 }

/-! ## Shared lemmas -/

/-- Creating a bucket makes `bucket_exists` true for its name. -/
theorem bucket_exists_create_self (ms : MetadataStore) (n : String)
    (r : Option String) (t : Int) : (ms.create_bucket n r t).bucket_exists n = true := by
  simp [MetadataStore.create_bucket, MetadataStore.bucket_exists, List.filter_append]

/-- `store_object` leaves the bucket table unchanged. -/
theorem bucket_exists_store_object (ms : MetadataStore) (o : Object) (n : String) :
    (ms.store_object o).bucket_exists n = ms.bucket_exists n := rfl

/-- The freshly built object always passes the put-side integrity check:
its stored checksums are the ones just computed from its bytes. -/
theorem object_new_verifies (h : HashFns) (bucket key : String) (data : List Nat)
    (content_type : Option String) (custom_metadata : List (String × String))
    (now : Int) (version_id : String) :
    (Object.new h bucket key data content_type custom_metadata now version_id).verify_integrity h
      = true := by
  show (h.sha256Hex data == h.sha256Hex data && h.blake3Hex data == h.blake3Hex data) = true
  simp

/-- Characterization of `StorageEngine::put_object` when capacity
suffices: the put succeeds and performs the auto-create / blob write /
metadata append / stats updates of `engine.rs` lines 63-113. -/
theorem put_object_spec (h : HashFns) (e : StorageEngine) (bucket key : String)
    (data : List Nat) (content_type : Option String)
    (custom_metadata : List (String × String)) (now : Int) (version_id : String)
    (hspace : e.used_space_bytes + data.length ≤ e.max_storage_size) :
    StorageEngine.put_object h e bucket key data content_type custom_metadata now version_id =
      (let e1 := if e.metadata_store.bucket_exists bucket then e
                 else { e with metadata_store := e.metadata_store.create_bucket bucket none now }
       let o := Object.new h bucket key data content_type custom_metadata now version_id
       .ok (ObjectReference.from_object o,
         { e1 with
             blobs := storeBlob e1.blobs o.id o.data
             metadata_store := e1.metadata_store.store_object o
             total_objects := e1.total_objects + 1
             total_size_bytes := e1.total_size_bytes + o.metadata.size
             used_space_bytes := e1.used_space_bytes + o.metadata.size })) := by
  have hsize : (Object.new h bucket key data content_type custom_metadata now version_id).metadata.size
      = data.length := rfl
  simp only [StorageEngine.put_object, object_new_verifies, Bool.not_true, Bool.false_eq_true,
    if_false]
  split
  · rw [if_neg (by simp only [hsize]; omega)]
  · rw [if_neg (by simp only [hsize]; omega)]

/-! ## C8 — ETag definition -/

/-- C8 counterexample: the recorded ETag is NOT the bare first 32 hex
characters of the BLAKE3 digest — it carries surrounding double quotes
(`format!("\"{}\"", &checksum.blake3[..32])`, `object.rs` line 50). -/
theorem c8_counterexample :
    (Object.new hashFnsModel "b" "k" [104] none [] 1 "v1").metadata.etag
      ≠ (hashFnsModel.blake3Hex [104]).take 32 := by decide

/-- C8 (amended): the ETag recorded in the object's metadata, in the
metadata row written for it, and in the reference returned to the caller
is the first 32 hex characters of the BLAKE3 digest of the object's
bytes WRAPPED IN DOUBLE QUOTES (the S3-style quoted form). -/
theorem c8_etag_quoted_blake3_hex32 (h : HashFns) (bucket key : String)
    (data : List Nat) (content_type : Option String)
    (custom_metadata : List (String × String)) (now : Int) (version_id : String) :
    (Object.new h bucket key data content_type custom_metadata now version_id).metadata.etag
        = "\"" ++ (h.blake3Hex data).take 32 ++ "\"" ∧
    (rowOfObject (Object.new h bucket key data content_type custom_metadata now version_id)).etag
        = "\"" ++ (h.blake3Hex data).take 32 ++ "\"" ∧
    (ObjectReference.from_object
        (Object.new h bucket key data content_type custom_metadata now version_id)).etag
        = "\"" ++ (h.blake3Hex data).take 32 ++ "\"" :=
  ⟨rfl, rfl, rfl⟩

/-! ## C9 — vote rule -/

/-- C9 counterexample: a node at term 5 whose log's last entry has
term 5 grants its vote to an equal-term candidate whose log is empty
(`last_log_term = 0`, `last_log_index = 0`), although the spec's
up-to-dateness condition (formalised by `specVoteGrant`) rejects it. -/
theorem c9_counterexample :
    (handle_vote_request staleLogLocalState staleLogRequest).1 = true ∧
    specVoteGrant staleLogLocalState staleLogRequest = false := by decide

/-- C9 (amended): the vote is granted exactly when the requester's term
is strictly above the local term, or equal to it with `voted_for` unset
or already set to this candidate; the requester's `last_log_term` and
`last_log_index` are never consulted (the handler's result does not
depend on the local log at all). -/
theorem c9_vote_grant_ignores_log (s : RaftVoteState) (req : VoteRequest) :
    ((handle_vote_request s req).1 =
      (req.term > s.current_term ||
        (req.term == s.current_term &&
          (s.voted_for.isNone || s.voted_for == some req.candidate_id)))) ∧
    ∀ l : List LogEntry,
      (handle_vote_request { s with log := l } req).1 = (handle_vote_request s req).1 := by
  constructor
  · by_cases h1 : req.term > s.current_term
    · simp [handle_vote_request, h1]
    · by_cases h2 : req.term = s.current_term
      · simp [handle_vote_request, h1, h2]
      · simp [handle_vote_request, h1, h2]
  · intro l
    by_cases h1 : req.term > s.current_term
    · simp [handle_vote_request, h1]
    · by_cases h2 : req.term = s.current_term
      · simp [handle_vote_request, h1, h2]
      · simp [handle_vote_request, h1, h2]

/-! ## C10 — versionless delete of a missing key -/

/-- C10: with the write gate open, a versionless `DeleteObject` reports
success and appends a fresh delete-marker row for ANY engine state —
in particular when the bucket or key has never existed — because
`MetadataStore::delete_object` returns `true` unconditionally; the
handler's `NoSuchKey` branch is unreachable for a versionless delete. -/
theorem c10_versionless_delete_always_succeeds (cs : ClusterState) (e : StorageEngine)
    (bucket key : String) (now : Int) (fresh_vid : String)
    (hgate : cs.is_write_enabled = true) :
    delete_object_handler cs e bucket key none now fresh_vid =
      .ok (true,
        { e with metadata_store :=
            { e.metadata_store with objects :=
                e.metadata_store.objects ++ [deleteMarkerRow bucket key fresh_vid now] } }) ∧
    (e.metadata_store.delete_object bucket key none now fresh_vid).1 = true := by
  refine ⟨?_, rfl⟩
  simp [delete_object_handler, StorageEngine.delete_object, MetadataStore.delete_object, hgate]

/-- C10 witness: the versionless delete of a key that was never put, in
a bucket that was never created, from an empty engine. -/
theorem c10_versionless_delete_always_succeeds_witness :
    openCluster.is_write_enabled = true ∧
    delete_object_handler openCluster (StorageEngine.fresh 0) "b" "k" none 7 "v9" =
      .ok (true,
        { StorageEngine.fresh 0 with metadata_store :=
            { (StorageEngine.fresh 0).metadata_store with
                objects := [deleteMarkerRow "b" "k" "v9" 7] } }) ∧
    ((StorageEngine.fresh 0).metadata_store.delete_object "b" "k" none 7 "v9").1 = true := by
  have h := c10_versionless_delete_always_succeeds openCluster (StorageEngine.fresh 0)
    "b" "k" 7 "v9" rfl
  exact ⟨rfl, by simpa using h.1, h.2⟩

/-! ## C5 — create_bucket uniqueness -/

/-- C5 counterexample: creating bucket `"b"` twice: the second handler
call also succeeds (no `AlreadyExists` anywhere) and the bucket table
ends up with TWO rows named `"b"`. -/
theorem c5_counterexample :
    create_bucket_handler openCluster (StorageEngine.fresh 0) "b" 1
        = .ok ((StorageEngine.fresh 0).create_bucket "b" none 1) ∧
    create_bucket_handler openCluster ((StorageEngine.fresh 0).create_bucket "b" none 1) "b" 2
        = .ok (((StorageEngine.fresh 0).create_bucket "b" none 1).create_bucket "b" none 2) ∧
    ((((StorageEngine.fresh 0).create_bucket "b" none 1).create_bucket "b" none 2).metadata_store.buckets.map
        BucketRow.name) = ["b", "b"] :=
  ⟨rfl, rfl, rfl⟩

/-- C5 (amended): `create_bucket` never checks for a duplicate name:
with the gate open the handler always succeeds, and each call appends
one more bucket row, so two creations of the same name leave two rows
with that name (rather than failing `AlreadyExists` and leaving the
bucket set unchanged). -/
theorem c5_duplicate_create_bucket_appends (cs : ClusterState) (ms : MetadataStore)
    (n : String) (r1 r2 : Option String) (t1 t2 : Int) (e : StorageEngine) (now : Int)
    (hgate : cs.is_write_enabled = true) :
    ((((ms.create_bucket n r1 t1).create_bucket n r2 t2).buckets.filter
        (fun b => b.name == n)).length
      = (ms.buckets.filter (fun b => b.name == n)).length + 2) ∧
    create_bucket_handler cs e n now = .ok (e.create_bucket n none now) := by
  constructor
  · simp [MetadataStore.create_bucket, List.filter_append]
  · simp [create_bucket_handler, hgate]

/-- C5 witness: duplicate creation from the empty store. -/
theorem c5_duplicate_create_bucket_appends_witness :
    ((((MetadataStore.empty.create_bucket "b" none 1).create_bucket "b" none 2).buckets.filter
        (fun b => b.name == "b")).length
      = ((MetadataStore.empty.buckets.filter (fun b => b.name == "b")).length + 2)) ∧
    create_bucket_handler openCluster (StorageEngine.fresh 0) "b" 1
        = .ok ((StorageEngine.fresh 0).create_bucket "b" none 1) :=
  c5_duplicate_create_bucket_appends openCluster MetadataStore.empty "b" none none 1 2
    (StorageEngine.fresh 0) 1 rfl

/-! ## C3 — delete-marker read semantics -/

/-- C3 counterexample: after `put("b","k")` then versionless
`delete("b","k")` the key's most recent version IS a delete marker, yet
the versionless metadata lookup still returns the put version `v1`
(delete markers are filtered out of the lookup, `metadata.rs` line 221),
and the get handler returns a `Corruption` storage error — not
`NoSuchKey`. -/
theorem c3_counterexample :
    (enginePutDelete.metadata_store.objects.map ObjectRow.is_delete_marker) = [false, true] ∧
    (enginePutDelete.get_object_metadata "b" "k" none).map ObjectReference.version_id
        = some "v1" ∧
    get_object_handler hashFnsModel enginePutDelete "b" "k" none
        = .error (.Storage (.Corruption "b:k:bbbbbbbbbbbbbbbb failed integrity check")) :=
  ⟨rfl, rfl, rfl⟩

/-- C3 (amended): delete markers are invisible to `get_object_metadata`
— appending a versionless delete marker changes NO lookup result (both
query branches filter `is_delete_marker = false`), so a get after
put+delete does not return `NoSuchKey`; it still resolves to the latest
non-marker version. -/
theorem c3_delete_marker_invisible_to_get (ms : MetadataStore) (bucket key : String)
    (now : Int) (fresh_vid : String) (b' k' : String) (vid : Option String) :
    ((ms.delete_object bucket key none now fresh_vid).2).get_object_metadata b' k' vid
      = ms.get_object_metadata b' k' vid := by
  cases vid with
  | some v =>
      simp [MetadataStore.delete_object, MetadataStore.get_object_metadata,
        List.find?_append, deleteMarkerRow]
  | none =>
      simp [MetadataStore.delete_object, MetadataStore.get_object_metadata,
        List.filter_append, deleteMarkerRow]

/-! ## C4 — PutObject on an absent bucket -/

/-- C4 counterexample: the bucket `"b"` does not exist, yet
`put_object` SUCCEEDS (rather than failing `NoSuchBucket`) and the
bucket exists afterwards — `engine.rs` lines 71-73 auto-create it. -/
theorem c4_counterexample :
    (StorageEngine.fresh 1000).bucket_exists "b" = false ∧
    (StorageEngine.put_object hashFnsModel (StorageEngine.fresh 1000) "b" "k" [104]
        none [] 1 "v1").toOption.map
      (fun p => ((p.2).bucket_exists "b", p.1.key, p.1.size)) = some (true, "k", 1) :=
  ⟨rfl, rfl⟩

/-- C4 (amended): a put naming an absent bucket never fails with
`NoSuchBucket` (no such error even exists in the engine): the engine
first creates the bucket and then proceeds, so given sufficient capacity
the put succeeds and the bucket exists afterwards. -/
theorem c4_put_autocreates_bucket (h : HashFns) (e : StorageEngine) (bucket key : String)
    (data : List Nat) (content_type : Option String)
    (custom_metadata : List (String × String)) (now : Int) (version_id : String)
    (hspace : e.used_space_bytes + data.length ≤ e.max_storage_size) :
    ∃ r e', StorageEngine.put_object h e bucket key data content_type custom_metadata
        now version_id = .ok (r, e') ∧ e'.bucket_exists bucket = true := by
  rw [put_object_spec h e bucket key data content_type custom_metadata now version_id hspace]
  refine ⟨_, _, rfl, ?_⟩
  show (let e1 := if e.metadata_store.bucket_exists bucket then e
            else { e with metadata_store := e.metadata_store.create_bucket bucket none now }
        e1.metadata_store.store_object
          (Object.new h bucket key data content_type custom_metadata now version_id)).bucket_exists
      bucket = true
  rw [bucket_exists_store_object]
  split
  · next hex => exact hex
  · exact bucket_exists_create_self _ _ _ _

/-- C4 witness: put of one byte into the absent bucket `"b"` of a fresh
1000-byte engine. -/
theorem c4_put_autocreates_bucket_witness :
    ∃ r e', StorageEngine.put_object hashFnsModel (StorageEngine.fresh 1000) "b" "k" [104]
        none [] 1 "v1" = .ok (r, e') ∧ e'.bucket_exists "b" = true :=
  c4_put_autocreates_bucket hashFnsModel (StorageEngine.fresh 1000) "b" "k" [104]
    none [] 1 "v1" (by decide)

/-! ## C1 — put/get round trip -/

/-- C1 (code bug): after ANY successful put into a fresh engine, the
subsequent get does not return the stored bytes — it ALWAYS fails with
`Corruption`. `StorageEngine::get_object` (`engine.rs` lines 134-144)
rebuilds the object with both stored checksum fields set to the empty
string (the persisted checksum columns are never read back) and then
calls `verify_integrity`, which compares the recomputed digests against
those empty strings and necessarily fails. -/
theorem c1_put_then_get_corruption (h : HashFns) (cap : Nat) (bucket key : String)
    (data : List Nat) (content_type : Option String)
    (custom_metadata : List (String × String)) (now : Int) (version_id : String)
    (hspace : data.length ≤ cap)
    (hsha : h.sha256Hex data ≠ "") :
    ∃ r e', StorageEngine.put_object h (StorageEngine.fresh cap) bucket key data
        content_type custom_metadata now version_id = .ok (r, e') ∧
      StorageEngine.get_object h e' bucket key none
        = .error (.Corruption (r.id ++ " failed integrity check")) := by
  rw [put_object_spec h (StorageEngine.fresh cap) bucket key data content_type
    custom_metadata now version_id (by show 0 + data.length ≤ cap; omega)]
  refine ⟨_, _, rfl, ?_⟩
  simp only [StorageEngine.get_object, StorageEngine.fresh, MetadataStore.empty,
    MetadataStore.bucket_exists, MetadataStore.create_bucket, MetadataStore.store_object,
    MetadataStore.get_object_metadata, rowOfObject, storeBlob, loadBlob, latestRow, refOfRow,
    Object.verify_integrity, calculate_checksum, Object.new, ObjectReference.from_object,
    generate_id]
  simp [List.find?, List.filter, refOfRow, hsha]

/-- C1 witness: the concrete put of bytes `[104, 105]` followed by a
get, evaluated with the concrete hash stand-in. -/
theorem c1_put_then_get_corruption_witness :
    ∃ r e', StorageEngine.put_object hashFnsModel (StorageEngine.fresh 1000) "b" "k"
        [104, 105] none [] 1 "v1" = .ok (r, e') ∧
      StorageEngine.get_object hashFnsModel e' "b" "k" none
        = .error (.Corruption (r.id ++ " failed integrity check")) :=
  c1_put_then_get_corruption hashFnsModel 1000 "b" "k" [104, 105] none [] 1 "v1"
    (by decide) (by decide)

/-! ## C2 — replication gate -/

/-- C2: after a cluster-monitor tick, when the number of Active nodes
INCLUDING SELF is below the replication factor — that set is exactly
the Active entries of `active_nodes`, since self is inserted there by
its own looped-back heartbeat (`manager.rs` lines 132-158, 211-232) —
every put / versionless-or-versioned delete / create_bucket request is
refused with `InsufficientReplicas` (the handlers return before
touching the engine, so no storage mutation occurs), while get / head /
list requests are never refused with `InsufficientReplicas` in any
engine state. -/
theorem c2_replication_gate (h : HashFns) (R hbi : Nat) (now t : Int) (cs : ClusterState)
    (e : StorageEngine) (bucket key : String) (body : List Nat)
    (content_type : Option String) (custom_metadata : List (String × String))
    (vid fresh_vid : String) (vopt : Option String)
    (hgate : countActive cs.active_nodes < R) :
    (put_object_handler h (monitorTick R hbi now cs) e bucket key body content_type
        custom_metadata t vid = .error .InsufficientReplicas) ∧
    (delete_object_handler (monitorTick R hbi now cs) e bucket key vopt t fresh_vid
        = .error .InsufficientReplicas) ∧
    (create_bucket_handler (monitorTick R hbi now cs) e bucket t
        = .error .InsufficientReplicas) ∧
    (∀ v, get_object_handler h e bucket key v ≠ .error .InsufficientReplicas) ∧
    (∀ v, head_object_handler e bucket key v ≠ .error .InsufficientReplicas) ∧
    (∀ p mk, list_objects_v2_handler e bucket p mk ≠ .error .InsufficientReplicas) := by
  have hflag : (monitorTick R hbi now cs).is_write_enabled = false := by
    simp only [monitorTick, decide_eq_false_iff_not]
    omega
  refine ⟨?_, ?_, ?_, ?_, ?_, ?_⟩
  · simp [put_object_handler, hflag]
  · simp [delete_object_handler, hflag]
  · simp [create_bucket_handler, hflag]
  · intro v
    unfold get_object_handler
    cases hE : StorageEngine.get_object h e bucket key v with
    | error se => simp
    | ok oo => cases oo <;> simp
  · intro v
    unfold head_object_handler
    cases hE : StorageEngine.get_object_metadata e bucket key v <;> simp
  · intro p mk
    unfold list_objects_v2_handler
    by_cases hb : e.bucket_exists bucket <;> simp [hb]

/-- C2 witness: replication factor 2 with `active_nodes = [self]`
(one Active node including self, below 2): the put is refused. -/
theorem c2_replication_gate_witness :
    countActive selfOnlyCluster.active_nodes < 2 ∧
    put_object_handler hashFnsModel (monitorTick 2 1000 0 selfOnlyCluster)
        (StorageEngine.fresh 0) "b" "k" [104] none [] 1 "v1"
      = .error .InsufficientReplicas :=
  ⟨by decide,
    (c2_replication_gate hashFnsModel 2 1000 0 1 selfOnlyCluster
      (StorageEngine.fresh 0) "b" "k" [104] none [] "v1" "v2" none (by decide)).1⟩

/-! ## C7 — version ordering -/

/-- A member of `btInsert k v l` is `(k, v)` or a member of `l`. -/
theorem mem_btInsert {y : Int × VersionInfo} {k : Int} {v : VersionInfo}
    {l : List (Int × VersionInfo)} (hy : y ∈ btInsert k v l) : y = (k, v) ∨ y ∈ l := by
  induction l with
  | nil => simpa [btInsert] using hy
  | cons x xs ih =>
    simp only [btInsert] at hy
    split at hy
    · rcases List.mem_cons.mp hy with rfl | hy'
      · exact Or.inl rfl
      · exact Or.inr hy'
    · split at hy
      · rcases List.mem_cons.mp hy with rfl | hy'
        · exact Or.inl rfl
        · exact Or.inr (List.mem_cons_of_mem _ hy')
      · rcases List.mem_cons.mp hy with rfl | hy'
        · exact Or.inr (List.mem_cons_self _ _)
        · rcases ih hy' with rfl | h''
          · exact Or.inl rfl
          · exact Or.inr (List.mem_cons_of_mem _ h'')

/-- `btInsert` keeps the map's keys strictly increasing. -/
theorem btInsert_pairwise (k : Int) (v : VersionInfo) (l : List (Int × VersionInfo))
    (hl : l.Pairwise (fun p q => p.1 < q.1)) :
    (btInsert k v l).Pairwise (fun p q => p.1 < q.1) := by
  induction l with
  | nil => simp [btInsert]
  | cons x xs ih =>
    rw [List.pairwise_cons] at hl
    obtain ⟨hx, hxs⟩ := hl
    by_cases h1 : k < x.1
    · simp only [btInsert, if_pos h1]
      rw [List.pairwise_cons]
      refine ⟨?_, List.pairwise_cons.mpr ⟨hx, hxs⟩⟩
      intro y hy
      rcases List.mem_cons.mp hy with rfl | hy'
      · exact h1
      · exact lt_trans h1 (hx y hy')
    · by_cases h2 : k = x.1
      · simp only [btInsert, if_neg h1, if_pos h2]
        rw [List.pairwise_cons]
        refine ⟨fun y hy => h2 ▸ hx y hy, hxs⟩
      · simp only [btInsert, if_neg h1, if_neg h2]
        rw [List.pairwise_cons]
        refine ⟨?_, ih hxs⟩
        intro y hy
        rcases mem_btInsert hy with rfl | hy'
        · omega
        · exact hx y hy'

/-- Folding `applyVersionRow` preserves strictly increasing keys. -/
theorem foldl_applyVersionRow_pairwise (rows : List ObjectRow) (vo : VersionedObject)
    (h : vo.versions.Pairwise (fun p q => p.1 < q.1)) :
    ((rows.foldl applyVersionRow vo).versions).Pairwise (fun p q => p.1 < q.1) := by
  induction rows generalizing vo with
  | nil => exact h
  | cons r rs ih => exact ih _ (btInsert_pairwise _ _ _ h)

/-- C7 counterexample: two distinct object versions of `("b","h")` with
the identical timestamp 5 are stored, but `get_versioned_object`
enumerates only ONE of them — the timestamp-keyed map collapses the
tie (`versions.insert(created_at, ...)`, `metadata.rs` line 326);
`version_id` never acts as a tiebreaker. -/
theorem c7_counterexample :
    (equalTsStore.objects.map ObjectRow.version_id) = ["v1", "v2"] ∧
    (equalTsStore.objects.map ObjectRow.created_at) = [5, 5] ∧
    (equalTsStore.get_versioned_object "b" "h").map
        (fun vo => vo.versions.map (fun p => p.2.version_id)) = some ["v2"] :=
  ⟨rfl, rfl, rfl⟩

/-- C7 (amended): the version list kept for a key is keyed by creation
timestamp ALONE: the enumerated timestamps are strictly increasing, but
only because versions created with identical timestamps overwrite one
another in the map — they are not both retained, and version ids play
no ordering role. -/
theorem c7_versions_strictly_sorted_by_timestamp (s : MetadataStore) (bucket key : String)
    (vo : VersionedObject) (hvo : s.get_versioned_object bucket key = some vo) :
    vo.versions.Pairwise (fun p q => p.1 < q.1) := by
  rw [MetadataStore.get_versioned_object] at hvo
  by_cases hne :
      (sortByTsAsc (s.objects.filter (fun r => r.bucket == bucket && r.key == key))).isEmpty
  · simp [hne] at hvo
  · simp only [hne, if_false, Bool.false_eq_true] at hvo
    injection hvo with hvo
    rw [← hvo]
    exact foldl_applyVersionRow_pairwise _ _ List.Pairwise.nil

/-- C7 witness: the strictly increasing (singleton) timestamp list of
the equal-timestamp store. -/
theorem c7_versions_strictly_sorted_by_timestamp_witness :
    equalTsVersioned.versions.Pairwise (fun p q => p.1 < q.1) :=
  c7_versions_strictly_sorted_by_timestamp equalTsStore "b" "h" equalTsVersioned rfl

/-! ## C6 — listing filter -/

/-- A member of `insertKeySorted k l` is `k` or a member of `l`. -/
theorem mem_insertKeySorted {x k : String} {l : List String}
    (hx : x ∈ insertKeySorted k l) : x = k ∨ x ∈ l := by
  induction l with
  | nil => simpa [insertKeySorted] using hx
  | cons y ys ih =>
    simp only [insertKeySorted] at hx
    split at hx
    · rcases List.mem_cons.mp hx with rfl | hx'
      · exact Or.inl rfl
      · exact Or.inr hx'
    · split at hx
      · exact Or.inr hx
      · rcases List.mem_cons.mp hx with rfl | hx'
        · exact Or.inr (List.mem_cons_self _ _)
        · rcases ih hx' with rfl | h''
          · exact Or.inl rfl
          · exact Or.inr (List.mem_cons_of_mem _ h'')

/-- `insertKeySorted` keeps the key list strictly sorted. -/
theorem insertKeySorted_pairwise (k : String) (l : List String)
    (hl : l.Pairwise (fun a b => a < b)) :
    (insertKeySorted k l).Pairwise (fun a b => a < b) := by
  induction l with
  | nil => simp [insertKeySorted]
  | cons x xs ih =>
    rw [List.pairwise_cons] at hl
    obtain ⟨hx, hxs⟩ := hl
    by_cases h1 : k < x
    · simp only [insertKeySorted, if_pos h1]
      rw [List.pairwise_cons]
      refine ⟨?_, List.pairwise_cons.mpr ⟨hx, hxs⟩⟩
      intro y hy
      rcases List.mem_cons.mp hy with rfl | hy'
      · exact h1
      · exact lt_trans h1 (hx y hy')
    · by_cases h2 : k = x
      · simp only [insertKeySorted, if_neg h1, if_pos h2]
        exact List.pairwise_cons.mpr ⟨hx, hxs⟩
      · simp only [insertKeySorted, if_neg h1, if_neg h2]
        rw [List.pairwise_cons]
        refine ⟨?_, ih hxs⟩
        intro y hy
        rcases mem_insertKeySorted hy with rfl | hy'
        · rcases lt_trichotomy y x with h | h | h
          · exact absurd h h1
          · exact absurd h h2
          · exact h
        · exact hx y hy'

/-- The key list built by `sortedDistinctKeys` is strictly sorted. -/
theorem sortedDistinctKeys_pairwise (rows : List ObjectRow) :
    (sortedDistinctKeys rows).Pairwise (fun a b => a < b) := by
  suffices haux : ∀ (rs : List ObjectRow) (acc : List String),
      acc.Pairwise (fun a b => a < b) →
      (rs.foldl (fun acc r => insertKeySorted r.key acc) acc).Pairwise (fun a b => a < b) by
    exact haux rows [] List.Pairwise.nil
  intro rs
  induction rs with
  | nil => exact fun acc h => h
  | cons r rs ih => exact fun acc h => ih _ (insertKeySorted_pairwise _ _ h)

/-- The row selected by `latestRow` comes from the scanned list. -/
theorem latestRow_mem {rows : List ObjectRow} {r : ObjectRow}
    (h : latestRow rows = some r) : r ∈ rows := by
  suffices haux : ∀ (rs : List ObjectRow) (acc : Option ObjectRow),
      rs.foldl
        (fun acc r =>
          match acc with
          | none => some r
          | some m => if r.created_at > m.created_at then some r else some m)
        acc = some r → r ∈ rs ∨ acc = some r by
    rcases haux rows none h with hm | hbad
    · exact hm
    · simp at hbad
  intro rs
  induction rs with
  | nil => exact fun acc hacc => Or.inr hacc
  | cons x xs ih =>
    intro acc hacc
    rw [List.foldl_cons] at hacc
    rcases ih _ hacc with hm | hstep
    · exact Or.inl (List.mem_cons_of_mem _ hm)
    · cases acc with
      | none =>
          injection hstep with hx
          exact Or.inl (hx ▸ List.mem_cons_self _ _)
      | some m =>
          have hstep' : (if x.created_at > m.created_at then some x else some m) = some r :=
            hstep
          by_cases hgt : x.created_at > m.created_at
          · rw [if_pos hgt] at hstep'
            injection hstep' with hx
            exact Or.inl (hx ▸ List.mem_cons_self _ _)
          · rw [if_neg hgt] at hstep'
            exact Or.inr hstep'

/-- `insertKeySorted` contains the inserted key. -/
theorem self_mem_insertKeySorted (k : String) (l : List String) :
    k ∈ insertKeySorted k l := by
  induction l with
  | nil => simp [insertKeySorted]
  | cons x xs ih =>
    simp only [insertKeySorted]
    split
    · exact List.mem_cons_self _ _
    · split
      · next h2 => rw [h2]; exact List.mem_cons_self _ _
      · exact List.mem_cons_of_mem _ ih

/-- `insertKeySorted` keeps every existing member. -/
theorem mem_insertKeySorted_of_mem {x : String} (k : String) {l : List String}
    (hx : x ∈ l) : x ∈ insertKeySorted k l := by
  induction l with
  | nil => cases hx
  | cons y ys ih =>
    simp only [insertKeySorted]
    split
    · exact List.mem_cons_of_mem _ hx
    · split
      · exact hx
      · rcases List.mem_cons.mp hx with rfl | h'
        · exact List.mem_cons_self _ _
        · exact List.mem_cons_of_mem _ (ih h')

/-- A key is in `sortedDistinctKeys rows` exactly when some row of
`rows` carries it. -/
theorem mem_sortedDistinctKeys_iff (rows : List ObjectRow) (k : String) :
    k ∈ sortedDistinctKeys rows ↔ ∃ r ∈ rows, r.key = k := by
  suffices haux : ∀ (rs : List ObjectRow) (acc : List String),
      k ∈ rs.foldl (fun acc r => insertKeySorted r.key acc) acc ↔
        (∃ r ∈ rs, r.key = k) ∨ k ∈ acc by
    rw [sortedDistinctKeys, haux]
    simp
  intro rs
  induction rs with
  | nil => intro acc; simp
  | cons r rs ih =>
    intro acc
    rw [List.foldl_cons, ih]
    constructor
    · rintro (⟨r', hr', rfl⟩ | hacc)
      · exact Or.inl ⟨r', List.mem_cons_of_mem _ hr', rfl⟩
      · rcases mem_insertKeySorted hacc with rfl | h'
        · exact Or.inl ⟨r, List.mem_cons_self _ _, rfl⟩
        · exact Or.inr h'
    · rintro (⟨r', hr', rfl⟩ | hacc)
      · rcases List.mem_cons.mp hr' with rfl | h'
        · exact Or.inr (self_mem_insertKeySorted _ _)
        · exact Or.inl ⟨r', h', rfl⟩
      · exact Or.inr (mem_insertKeySorted_of_mem _ hacc)

/-- `latestRow` of a non-empty list yields a row. -/
theorem latestRow_isSome {rows : List ObjectRow} (h : rows ≠ []) :
    ∃ r, latestRow rows = some r := by
  suffices haux : ∀ (rs : List ObjectRow) (m : ObjectRow),
      ∃ r, rs.foldl
        (fun acc r =>
          match acc with
          | none => some r
          | some m => if r.created_at > m.created_at then some r else some m)
        (some m) = some r by
    cases rows with
    | nil => exact absurd rfl h
    | cons x xs => exact haux xs x
  intro rs
  induction rs with
  | nil => exact fun m => ⟨m, rfl⟩
  | cons x xs ih =>
    intro m
    by_cases hgt : x.created_at > m.created_at
    · simpa [List.foldl_cons, hgt] using ih x
    · simpa [List.foldl_cons, hgt] using ih m

/-- The row selected by `latestRow` has maximal `created_at` among the
scanned rows. -/
theorem latestRow_max {rows : List ObjectRow} {r : ObjectRow}
    (h : latestRow rows = some r) : ∀ x ∈ rows, x.created_at ≤ r.created_at := by
  suffices haux : ∀ (rs : List ObjectRow) (acc : Option ObjectRow),
      rs.foldl
        (fun acc r =>
          match acc with
          | none => some r
          | some m => if r.created_at > m.created_at then some r else some m)
        acc = some r →
      (∀ x ∈ rs, x.created_at ≤ r.created_at) ∧
      (∀ m, acc = some m → m.created_at ≤ r.created_at) by
    exact (haux rows none h).1
  intro rs
  induction rs with
  | nil =>
    intro acc hacc
    refine ⟨fun x hx => absurd hx (List.not_mem_nil x), fun m hm => ?_⟩
    rw [hm] at hacc
    injection hacc with h'
    rw [h']
  | cons x xs ih =>
    intro acc hacc
    rw [List.foldl_cons] at hacc
    obtain ⟨hxs, hstep⟩ := ih _ hacc
    have hxle : x.created_at ≤ r.created_at := by
      cases acc with
      | none => exact hstep x rfl
      | some m =>
        by_cases hgt : x.created_at > m.created_at
        · exact hstep x (by simp [hgt])
        · have hmle := hstep m (by simp [hgt])
          omega
    refine ⟨?_, ?_⟩
    · intro y hy
      rcases List.mem_cons.mp hy with rfl | hy'
      · exact hxle
      · exact hxs y hy'
    · intro m hm
      subst hm
      by_cases hgt : x.created_at > m.created_at
      · have := hstep x (by simp [hgt])
        omega
      · exact hstep m (by simp [hgt])

/-- When every key of `ks` is carried by some row of `rows`, the
per-key listing step drops nothing: the produced references' keys are
exactly `ks`. -/
theorem filterMap_latest_keys_eq (rows : List ObjectRow) (ks : List String)
    (hks : ∀ k ∈ ks, ∃ r ∈ rows, r.key = k) :
    ((ks.filterMap (fun k => (latestRowForKey rows k).map refOfRow)).map
      ObjectReference.key) = ks := by
  induction ks with
  | nil => simp
  | cons k ks ih =>
    obtain ⟨r0, hr0, hr0k⟩ := hks k (List.mem_cons_self _ _)
    have hne : rows.filter (fun r => r.key == k) ≠ [] := by
      intro hnil
      have hr0f : r0 ∈ rows.filter (fun r => r.key == k) :=
        List.mem_filter.mpr ⟨hr0, by simp [hr0k]⟩
      rw [hnil] at hr0f
      cases hr0f
    obtain ⟨row, hrow⟩ := latestRow_isSome hne
    have hrowk : row.key = k := by
      have hf := (List.mem_filter.mp (latestRow_mem hrow)).2
      simpa using hf
    have hlrfk : latestRowForKey rows k = some row := hrow
    rw [List.filterMap_cons, hlrfk, Option.map_some', List.map_cons,
      ih (fun k' hk' => hks k' (List.mem_cons_of_mem _ hk'))]
    simp [refOfRow, hrowk]

/-- C6 counterexample: key `"h"` of `tombstoneLatestStore` — whose MOST
RECENT version is a delete marker — IS returned by `list_objects`: the
SQL filters out marker rows before computing each key's latest row, so
a tombstoned key with any older live version stays listed. -/
theorem c6_counterexample :
    ((tombstoneLatestStore.list_objects "b" none 1000).map ObjectReference.key = ["h"]) ∧
    ((latestRow (tombstoneLatestStore.objects.filter
        (fun r => r.bucket == "b" && r.key == "h"))).map ObjectRow.is_delete_marker
      = some true) :=
  ⟨rfl, rfl⟩

/-- C6 (amended): `list_objects` returns at most `max_keys` entries in
strictly increasing lexicographic key order; the returned keys are
exactly the first `max_keys` sorted distinct keys possessing at least
one non-delete-marker row of the bucket matching the prefix — so,
subject only to the `max_keys` cap, a key is listed WHENEVER it has any
live version, even when its most recent version is a delete marker —
and each returned entry is the LATEST non-delete-marker matching row of
its key (maximal `created_at` among that key's live rows). -/
theorem c6_list_objects_latest_live (s : MetadataStore) (bucket : String)
    (pfx : Option String) (max_keys : Nat) :
    ((s.list_objects bucket pfx max_keys).map ObjectReference.key).Pairwise
        (fun a b => a < b) ∧
    (s.list_objects bucket pfx max_keys).length ≤ max_keys ∧
    ((s.list_objects bucket pfx max_keys).map ObjectReference.key
      = (sortedDistinctKeys (liveRows s bucket pfx)).take max_keys) ∧
    (∀ k, k ∈ sortedDistinctKeys (liveRows s bucket pfx) ↔
      ∃ row ∈ s.objects, row.bucket = bucket ∧ row.is_delete_marker = false ∧
        matchesPfx pfx row.key = true ∧ row.key = k) ∧
    (∀ ref ∈ s.list_objects bucket pfx max_keys, ∃ row ∈ s.objects,
      row.bucket = bucket ∧ row.is_delete_marker = false ∧
      matchesPfx pfx row.key = true ∧ refOfRow row = ref ∧
      ∀ row' ∈ s.objects, row'.bucket = bucket → row'.is_delete_marker = false →
        row'.key = row.key → row'.created_at ≤ row.created_at) := by
  have hkeys : (s.list_objects bucket pfx max_keys).map ObjectReference.key
      = (sortedDistinctKeys (liveRows s bucket pfx)).take max_keys := by
    simp only [MetadataStore.list_objects]
    exact filterMap_latest_keys_eq _ _ (fun k hk =>
      (mem_sortedDistinctKeys_iff _ k).mp (List.take_subset _ _ hk))
  refine ⟨?_, ?_, hkeys, ?_, ?_⟩
  · rw [hkeys]
    exact List.Pairwise.sublist (List.take_sublist _ _) (sortedDistinctKeys_pairwise _)
  · exact le_trans (List.length_filterMap_le _ _) (List.length_take_le _ _)
  · intro k
    rw [mem_sortedDistinctKeys_iff]
    constructor
    · rintro ⟨r, hr, rfl⟩
      have hm := List.mem_filter.mp hr
      have hp := hm.2
      simp only [Bool.and_eq_true, beq_iff_eq] at hp
      exact ⟨r, hm.1, hp.1.1, hp.1.2, hp.2, rfl⟩
    · rintro ⟨row, hrow, hb, hdm, hp, rfl⟩
      exact ⟨row, List.mem_filter.mpr ⟨hrow, by simp [hb, hdm, hp]⟩, rfl⟩
  · intro ref href
    simp only [MetadataStore.list_objects] at href
    rcases List.mem_filterMap.mp href with ⟨k, _, hfk⟩
    rcases Option.map_eq_some'.mp hfk with ⟨row, hrowk', hrefl⟩
    have hrow : latestRow ((liveRows s bucket pfx).filter (fun r => r.key == k)) = some row :=
      hrowk'
    have hinner := List.mem_filter.mp (latestRow_mem hrow)
    have hrowk : row.key = k := by
      have hf := hinner.2
      simpa using hf
    have hlive := List.mem_filter.mp hinner.1
    have hp := hlive.2
    simp only [Bool.and_eq_true, beq_iff_eq] at hp
    refine ⟨row, hlive.1, hp.1.1, hp.1.2, hp.2, hrefl, ?_⟩
    intro row' hrow' hb' hdm' hk'
    have hrow'mem : row' ∈ (liveRows s bucket pfx).filter (fun r => r.key == k) := by
      have hpfx' : matchesPfx pfx row'.key = true := by
        rw [hk']
        exact hp.2
      refine List.mem_filter.mpr ⟨List.mem_filter.mpr ⟨hrow', ?_⟩, ?_⟩
      · simp [hb', hdm', hpfx']
      · simp [hk', hrowk]
    exact latestRow_max hrow row' hrow'mem

/-- C6 witness: the theorem applied to the tombstone-latest store —
key `"h"`, whose newest version is a delete marker, is among the listed
keys because it still has a live row. -/
theorem c6_list_objects_latest_live_witness :
    ((tombstoneLatestStore.list_objects "b" none 1000).map ObjectReference.key).Pairwise
        (fun a b => a < b) ∧
    (tombstoneLatestStore.list_objects "b" none 1000).map ObjectReference.key
      = (sortedDistinctKeys (liveRows tombstoneLatestStore "b" none)).take 1000 :=
  ⟨(c6_list_objects_latest_live tombstoneLatestStore "b" none 1000).1,
   (c6_list_objects_latest_live tombstoneLatestStore "b" none 1000).2.2.1⟩

end O3
